import Mathlib

/- Shallow embedding of the libfnl repository pieces under verification:
   the MEDLINE fetch pipeline (libfnl/nlp/medline.py), the MEDLINE date
   helper (libfnl/medline/parser.py), the text classification toolkit
   (fnl/stat/textclass.py) and the tagger wrappers (fnl/nlp/genia). -/

/- ===== libfnl/nlp/medline.py : NeedsUpdate (lines 127-153) =====
   Dates are modelled by their ordinal day number (an Int); Python date
   subtraction yields a timedelta whose day count is exactly the ordinal
   difference, and timedelta comparison compares these day counts. -/

structure MedlineDoc where
  /- ordinal day of the date part of the document field named created -/
  created : Int
  status : String
  /- ordinal day of the document field named DateCreated -/
  dateCreated : Int
  hasDateRevised : Bool
  hasDateCompleted : Bool

def NeedsUpdate (today : Int) (doc : MedlineDoc) : Bool :=
  if today - doc.created < 7 then false
  else if doc.status = "In-Data-Review" ∨ doc.status = "In-Process" then true
  else if today - doc.dateCreated > 365 then
    if today - doc.dateCreated < 10 * 365 then
      !doc.hasDateRevised || !doc.hasDateCompleted
    else false
  else !doc.hasDateCompleted

/- ===== fnl/nlp/genia/tagger.py line 81 and nersuite.py line 66 =====
   In Python the percent formatting operator and multiplication share the
   same precedence level and associate to the left, so the expression
   fmt % status * -1 parses as (fmt % status) * -1, and multiplying a
   string by a non-positive integer yields the empty string. -/

def pyStrMul (s : String) (n : Int) : String :=
  String.join (List.replicate n.toNat s)

def geniaExitError (status : Int) : String :=
  pyStrMul ("geniatagger exited with " ++ toString status) (-1)

def nersuiteExitError (status : Int) : String :=
  pyStrMul ("nersuite exited with status " ++ toString status) (-1)

/- ===== fnl/stat/textclass.py : Classify error reporting (489-532) =====
   The cross validation loop overwrites the variables test, predictions
   and targets on every fold; PrintErrors is invoked once, after the
   loop, on whatever the last fold left in them. -/

structure FoldResult where
  test : List Nat
  predictions : List Nat
  targets : List Nat

def PrintErrors (test preds targets : List Nat) (raw : List String)
    (fn fp : Bool) : List String :=
  (List.range preds.length).filterMap (fun i =>
    let t := targets.getD i 0
    if preds.getD i 0 ≠ t then
      if t = 0 ∧ fn = true then
        some ("FN: " ++ raw.getD (test.getD i 0) "")
      else if t ≠ 0 ∧ fp = true then
        some ("FP: " ++ raw.getD (test.getD i 0) "")
      else none
    else none)

def classifyLastFold (folds : List FoldResult) : Option FoldResult :=
  folds.foldl (fun _ f => some f) none

def classifyErrors (folds : List FoldResult) (raw : List String)
    (fn fp : Bool) : Option (List String) :=
  if fn || fp then
    (classifyLastFold folds).map
      (fun f => PrintErrors f.test f.predictions f.targets raw fn fp)
  else some []

/- ===== libfnl/medline/parser.py : ParseDate (lines 265-290) =====
   A date element is modelled by the text of its Year child (the claim
   is scoped to elements that have one) and the optional texts of its
   Month and Day children.  Python int(s) tolerates surrounding
   whitespace, modelled by a character level parse that trims first.
   The returned calendar date is modelled as the (year, month, day)
   triple; the logged warnings are returned alongside it.  The error
   cases are failure of the mandatory Year parse and the ValueError
   raised by the datetime.date constructor at line 290 when a component
   is out of range (year outside 1..9999, month outside 1..12, day
   outside the Gregorian month length). -/

structure DateElement where
  year : String
  month : Option String
  day : Option String

def isPySpace (c : Char) : Bool :=
  c == ' ' || c == '\t' || c == '\n' || c == '\r'

def dropSpacesL : List Char → List Char
  | [] => []
  | c :: cs => if isPySpace c then dropSpacesL cs else c :: cs

def trimChars (cs : List Char) : List Char :=
  (dropSpacesL ((dropSpacesL cs).reverse)).reverse

def pyTrim (s : String) : String :=
  String.mk (trimChars s.data)

def natDigitsAux : List Char → Nat → Option Nat
  | [], acc => some acc
  | c :: cs, acc =>
    if c.isDigit then natDigitsAux cs (acc * 10 + (c.toNat - 48)) else none

def pyIntChars (cs : List Char) : Option Int :=
  match trimChars cs with
  | [] => none
  | '-' :: rest =>
    match rest with
    | [] => none
    | _ => (natDigitsAux rest 0).map (fun n => -(n : Int))
  | '+' :: rest =>
    match rest with
    | [] => none
    | _ => (natDigitsAux rest 0).map (fun n => (n : Int))
  | rest => (natDigitsAux rest 0).map (fun n => (n : Int))

def pyInt (s : String) : Option Int :=
  pyIntChars s.data

def lowerStr (s : String) : String :=
  String.mk (s.data.map Char.toLower)

def MONTHS_SHORT : List (Option String) :=
  [none, some "jan", some "feb", some "mar", some "apr", some "may",
   some "jun", some "jul", some "aug", some "sep", some "oct",
   some "nov", some "dec"]

def MONTH_ABBRS : List String :=
  ["jan", "feb", "mar", "apr", "may", "jun",
   "jul", "aug", "sep", "oct", "nov", "dec"]

def monthIndex (s : String) : Option Nat :=
  MONTHS_SHORT.findIdx? (· == some s)

def parseMonth : Option String → Int × List String
  | none => (1, [])
  | some mtext =>
    let mt := pyTrim mtext
    match pyInt mt with
    | some m => (m, [])
    | none =>
      match monthIndex (lowerStr mt) with
      | some i => ((i : Int), [])
      | none => (1, ["could not parse Month " ++ mt])

def parseDay : Option String → Int × List String
  | none => (1, [])
  | some dtext =>
    match pyInt dtext with
    | some d => (d, [])
    | none => (1, ["could not parse Day " ++ dtext])

def isLeapYear (y : Int) : Bool :=
  y % 4 == 0 && (y % 100 != 0 || y % 400 == 0)

def daysInMonth (y m : Int) : Int :=
  if m = 2 then (if isLeapYear y then 29 else 28)
  else if m = 4 ∨ m = 6 ∨ m = 9 ∨ m = 11 then 30
  else 31

def dateValid (y m d : Int) : Bool :=
  decide (1 ≤ y) && decide (y ≤ 9999) && decide (1 ≤ m) &&
    decide (m ≤ 12) && decide (1 ≤ d) && decide (d ≤ daysInMonth y m)

def ParseDate (e : DateElement) : Except String ((Int × Int × Int) × List String) :=
  match pyInt e.year with
  | none => Except.error "invalid Year"
  | some y =>
    let m := parseMonth e.month
    let d := parseDay e.day
    if dateValid y m.1 d.1 then Except.ok ((y, m.1, d.1), m.2 ++ d.2)
    else Except.error "ValueError: date component out of range"

/- ===== fnl/stat/textclass.py : Classify metric loop (499-511) =====
   The per fold scoring loop walks METRICS in order; the external
   sklearn scoring functions are abstracted as an oracle mapping a
   metric name and the fold arrays to a rational score. -/

def METRIC_NAMES : List String :=
  ["Accuracy", "Precision", "Recall", "F1-score", "MCC score"]

def foldScores (classes : Nat)
    (scoreFn : String → List Nat → List Nat → ℚ)
    (targets preds : List Nat) : List (String × ℚ) :=
  METRIC_NAMES.map (fun m =>
    (m, if 2 < classes ∧ m = "MCC score" then 0
        else scoreFn m targets preds))

/- ===== libfnl/nlp/medline.py : Dump gatekeeper (lines 91-124) =====
   Time is modelled as a rational clock.  One Dump invocation starts at
   a clock value with its local last_access initialised to 0.0 (source
   line 91); per batch with a non empty query it sleeps the clamped
   deficit max(last_access - now + 3, 0), records the request time as
   the new last_access, and then spends an arbitrary duration fetching
   and bulk writing before the next batch.  sleep is modelled as exact
   and the two time() calls around it as instantaneous. -/

def gatekeeperSleep (lastAccess now : ℚ) : ℚ :=
  max (lastAccess - now + 3) 0

def dumpBatches : ℚ → ℚ → List ℚ → List ℚ × ℚ
  | now, _, [] => ([], now)
  | now, la, d :: ds =>
    let r := now + gatekeeperSleep la now
    let rest := dumpBatches (r + d) r ds
    (r :: rest.1, rest.2)

def Dump (start : ℚ) (durations : List ℚ) : List ℚ × ℚ :=
  dumpBatches start 0 durations

def spaced3 (l : List ℚ) : Prop :=
  List.Chain' (fun a b => a + 3 ≤ b) l

/- ===== libfnl/nlp/medline.py : MakeDocuments text (183-218) =====
   A parsed citation is modelled by its PMID pair (trimmed text and
   Version attribute), its article title, and the optional abstract
   mapping from section key to section text.  Unicode NFC normalization
   is an external library call, abstracted as a string function
   parameter.  ABSTRACT_ELEMENTS transcribes source lines 59-66. -/

structure Citation where
  pmid : String × Int
  articleTitle : String
  abstract : Option (List (String × String))

def ABSTRACT_ELEMENTS : List String :=
  ["AbstractText", "Background", "Objective", "Methods",
   "Results", "Conclusions"]

def abstractGet (a : List (String × String)) (k : String) : Option String :=
  (a.find? (fun p => p.1 == k)).map (fun p => p.2)

def MakeText (nfc : String → String) (c : Citation) : String :=
  let text := nfc c.articleTitle
  match c.abstract with
  | none => text
  | some a =>
    ABSTRACT_ELEMENTS.foldl (fun buf s =>
      match abstractGet a s with
      | some t => buf ++ "\n\n" ++ nfc t
      | none => buf) text

/- MakeDocuments sets the text field and the id of each document; the
   pair below is (text, id). -/
def MakeDocumentFields (nfc : String → String) (c : Citation) : String × String :=
  (MakeText nfc c, c.pmid.1)

/- Follows the claim wording, which lists only the five labelled
   sections Background, Objective, Methods, Results, Conclusions as the
   configured abstract sections; written for comparison with MakeText. -/
def CLAIMED_ABSTRACT_ELEMENTS : List String :=
  ["Background", "Objective", "Methods", "Results", "Conclusions"]

def MakeTextClaimed (nfc : String → String) (c : Citation) : String :=
  let text := nfc c.articleTitle
  match c.abstract with
  | none => text
  | some a =>
    CLAIMED_ABSTRACT_ELEMENTS.foldl (fun buf s =>
      match abstractGet a s with
      | some t => buf ++ "\n\n" ++ nfc t
      | none => buf) text

def concatAll : List String → String
  | [] => ""
  | s :: rest => s ++ concatAll rest

/- ===== fnl/stat/textclass.py : Data construction (249-300) =====
   Python sorted() is a stable ascending sort; a stable sort is
   extensionally unique, so it is modelled by a stable insertion sort
   keyed by group length.  The constructor sorts the instance groups and
   the raw groups separately with the same key (lines 256 and 259),
   counts the groups as classes (line 258), and flattens labels as
   np.concatenate(zeros(len(g)) + i) over the enumerated sorted groups
   (lines 260-263).  sizes rebuilds the per class counts from a counter
   dictionary over the labels with sorted keys (lines 290-300). -/

def insertStable {α : Type} (k : α → Nat) (x : α) : List α → List α
  | [] => [x]
  | y :: ys => if k y < k x then y :: insertStable k x ys else x :: y :: ys

def sortStable {α : Type} (k : α → Nat) : List α → List α
  | [] => []
  | x :: xs => insertStable k x (sortStable k xs)

structure DataModel where
  instances : List String
  raw : List String
  labels : List Nat
  classes : Nat

def makeLabels (groups : List (List String)) : List Nat :=
  (groups.enum.map (fun p => List.replicate p.2.length p.1)).flatten

def dataInit (instGroups rawGroups : List (List String)) : DataModel :=
  let sortedInst := sortStable List.length instGroups
  { instances := sortedInst.flatten
    raw := (sortStable List.length rawGroups).flatten
    labels := makeLabels sortedInst
    classes := sortedInst.length }

def dictKeys (labels : List Nat) : List Nat :=
  labels.foldl (fun acc l => if l ∈ acc then acc else acc ++ [l]) []

def sizes (labels : List Nat) : List Nat :=
  (sortStable id (dictKeys labels)).map (fun k => labels.count k)

/- Example groups of sizes 10, 5 and 20, as in the claim. -/
def exInstGroups : List (List String) :=
  [List.replicate 10 "a", List.replicate 5 "b", List.replicate 20 "c"]

/- ===== fnl/stat/textclass.py : Line and TokenReader (303-442) =====
   The entities dictionary is modelled as an association list from
   entity type to its set of distinct phrases, the set as a list with
   deduplicating insertion.  Python truthiness of the _entity_type slot
   (None and the empty string are both falsy in closeEntity, while
   parsingEntity tests only for None) is transcribed literally.  The
   entities[name].add call in closeEntity relies on openEntity having
   registered the key; the lookup is modelled with an empty default. -/

structure Line where
  buffer : List String
  raw : List String
  entities : List (String × List String)
  entity : List String
  entityType : Option String
  filterFig : Bool
deriving DecidableEq

def Line.empty : Line :=
  { buffer := [], raw := [], entities := [], entity := [],
    entityType := none, filterFig := false }

def dictLookup (d : List (String × List String)) (k : String) :
    Option (List String) :=
  (d.find? (fun p => p.1 == k)).map (fun p => p.2)

def dictSet (d : List (String × List String)) (k : String)
    (v : List String) : List (String × List String) :=
  d.map (fun p => if p.1 == k then (p.1, v) else p)

def setAdd (s : List String) (x : String) : List String :=
  if x ∈ s then s else s ++ [x]

def closeEntity (l : Line) : Line :=
  match l.entityType with
  | none => l
  | some name =>
    if name = "" then l
    else
      { l with
        raw := l.raw ++ ["</" ++ name ++ ">"],
        entities := dictSet l.entities name
          (setAdd ((dictLookup l.entities name).getD [])
            (String.intercalate " " l.entity)),
        entity := [],
        entityType := none,
        filterFig := false }

def Line.parsingEntity (l : Line) : Bool :=
  l.entityType.isSome

def openEntity (l : Line) (name token : String) : Line :=
  let l2 :=
    if l.entityType = some name then l
    else
      let lc := closeEntity l
      { lc with
        raw := lc.raw ++ ["<" ++ name ++ ">"],
        entityType := some name,
        entities :=
          if (dictLookup lc.entities name).isSome then lc.entities
          else lc.entities ++ [(name, [])] }
  { l2 with entity := l2.entity ++ [token] }

def Line.append (l : Line) (token : String) (raw : Option String) : Line :=
  { l with
    buffer := l.buffer ++ [token],
    raw := l.raw ++
      [match raw with
       | some r => if r = "" then token else r
       | none => token] }

/- Python str.startswith, modelled structurally over character lists so
   that concrete instances evaluate inside the kernel. -/
def leadChars : List Char → List Char → Bool
  | [], _ => true
  | _ :: _, [] => false
  | c :: cs, d :: ds => (c == d) && leadChars cs ds

def strStarts (s pre : String) : Bool :=
  leadChars pre.data s.data

def UNMASK : List String :=
  ["Ab", "anti", "antibody", "antibodies", "binding", "ChIP",
   "Chromatin", "construct", "constructs", "enhancer", "element",
   "elements", "exon", "factor", "family", "Fig", "fragment", "gene",
   "genes", "GFP", "human", "islets", "isoform", "isoforms", "kb",
   "luciferase", "mouse", "motif", "mutant", "mutants", "mRNA",
   "proximal", "promoter", "promoters", "protein", "proteins", "rat",
   "reporter", "region", "regions", "repressor", "sequence",
   "sequences", "shRNA", "shRNAs", "siRNA", "siRNAs", "silencer",
   "site", "sites", "Table", "transcription"]

def parseTokenTag (data : Line) (token tag : String) : Except String Line :=
  if tag = "O" then
    Except.ok ((closeEntity data).append token none)
  else if strStarts tag "B-" || strStarts tag "I-" then
    if token ∈ UNMASK then
      Except.ok
        ((if token = "Fig" then { closeEntity data with filterFig := true }
          else { closeEntity data with filterFig := false }).append
          token none)
    else if data.filterFig then
      Except.ok (data.append token none)
    else if token = "." ∨ token = "-" then
      Except.ok
        ((if ¬ data.parsingEntity then
            { data with buffer := data.buffer ++ [token] }
          else data).append token none)
    else
      Except.ok ((openEntity data (tag.drop 2) token).append tag (some token))
  else
    Except.error ("unknown IOB tag " ++ tag ++ " for " ++ token)

instance : DecidableEq (Except String Line) := fun a b =>
  match a, b with
  | Except.ok x, Except.ok y =>
    if h : x = y then isTrue (by rw [h])
    else isFalse (fun hc => h (Except.noConfusion hc id))
  | Except.error x, Except.error y =>
    if h : x = y then isTrue (by rw [h])
    else isFalse (fun hc => h (Except.noConfusion hc id))
  | Except.ok _, Except.error _ => isFalse (fun hc => Except.noConfusion hc)
  | Except.error _, Except.ok _ => isFalse (fun hc => Except.noConfusion hc)

def runTags (l : Line) : List (String × String) → Except String Line
  | [] => Except.ok l
  | (tok, tg) :: rest =>
    match parseTokenTag l tok tg with
    | Except.ok l2 => runTags l2 rest
    | Except.error e => Except.error e

/- ======================= theorems ======================= -/

/-- C1: NeedsUpdate returns false for documents created within the last
7 days; otherwise it returns true exactly when the citation status is
In-Data-Review or In-Process, or the record (by its DateCreated field) is
strictly between 1 and 10 years old and lacks a DateRevised or a
DateCompleted stamp, or is at most 1 year old and lacks DateCompleted;
records 10 or more years old are never flagged. -/
theorem needsUpdate_correct (today : Int) (doc : MedlineDoc) :
    NeedsUpdate today doc = true ↔
      7 ≤ today - doc.created ∧
        (doc.status = "In-Data-Review" ∨ doc.status = "In-Process" ∨
          (365 < today - doc.dateCreated ∧ today - doc.dateCreated < 3650 ∧
            (doc.hasDateRevised = false ∨ doc.hasDateCompleted = false)) ∨
          (today - doc.dateCreated ≤ 365 ∧ doc.hasDateCompleted = false)) := by
  unfold NeedsUpdate
  by_cases h1 : today - doc.created < 7
  · rw [if_pos h1]
    constructor
    · intro h
      exact absurd h (by simp)
    · rintro ⟨ha, -⟩
      omega
  · rw [if_neg h1]
    by_cases h2 : doc.status = "In-Data-Review" ∨ doc.status = "In-Process"
    · rw [if_pos h2]
      constructor
      · intro _
        refine ⟨by omega, ?_⟩
        rcases h2 with h | h
        · exact Or.inl h
        · exact Or.inr (Or.inl h)
      · intro _
        rfl
    · rw [if_neg h2]
      push_neg at h2
      by_cases h3 : today - doc.dateCreated > 365
      · rw [if_pos h3]
        by_cases h4 : today - doc.dateCreated < 10 * 365
        · rw [if_pos h4]
          constructor
          · intro h
            have hmiss : doc.hasDateRevised = false ∨
                doc.hasDateCompleted = false := by
              simpa using h
            exact ⟨by omega, Or.inr (Or.inr (Or.inl
              ⟨h3, by omega, hmiss⟩))⟩
          · rintro ⟨-, hb⟩
            rcases hb with h | h | h | h
            · exact absurd h h2.1
            · exact absurd h h2.2
            · rcases h.2.2 with h' | h' <;> simp [h']
            · omega
        · rw [if_neg h4]
          constructor
          · intro h
            exact absurd h (by simp)
          · rintro ⟨-, hb⟩
            rcases hb with h | h | h | h
            · exact absurd h h2.1
            · exact absurd h h2.2
            · omega
            · omega
      · rw [if_neg h3]
        constructor
        · intro h
          exact ⟨by omega, Or.inr (Or.inr (Or.inr
            ⟨by omega, by simpa using h⟩))⟩
        · rintro ⟨-, hb⟩
          rcases hb with h | h | h | h
          · exact absurd h h2.1
          · exact absurd h h2.2
          · omega
          · simp [h.2]

/-- C9: when a tagger subprocess has already exited, the RuntimeError
message built by the iteration step of both wrappers is the empty string
for every exit status, because the formatted string is multiplied by -1;
the message therefore never reports the exit status. -/
theorem tagger_exit_message_empty (status : Int) :
    geniaExitError status = "" ∧ nersuiteExitError status = "" := by
  constructor <;> rfl

/-- C10: when fn or fp reporting is enabled, the misclassified instances
printed by Classify are computed exclusively from the final fold of the
cross validation loop; whatever the earlier folds contained is discarded. -/
theorem classifyErrors_last_fold (folds : List FoldResult) (f : FoldResult)
    (raw : List String) (fn fp : Bool) (h : (fn || fp) = true) :
    classifyErrors (folds ++ [f]) raw fn fp =
      some (PrintErrors f.test f.predictions f.targets raw fn fp) := by
  have hlast : classifyLastFold (folds ++ [f]) = some f := by
    simp [classifyLastFold, List.foldl_append]
  simp [classifyErrors, h, hlast]

/-- C10 witness: a fold sequence whose first fold misclassifies its only
instance and whose last fold classifies everything correctly prints no
errors at all. -/
theorem classifyErrors_last_fold_witness :
    classifyErrors [⟨[0], [1], [0]⟩, ⟨[0], [0], [0]⟩] ["x"] true false =
      some [] := by
  have h := classifyErrors_last_fold [⟨[0], [1], [0]⟩] ⟨[0], [0], [0]⟩
    ["x"] true false rfl
  simpa [PrintErrors] using h

/-- C5: Classify stores a zero MCC score on every fold whenever the
corpus has more than 2 classes, regardless of the scoring oracle, and
with at most 2 classes every metric, MCC included, is computed by its
scoring function from the fold targets and predictions. -/
theorem classify_mcc_forced (classes : Nat)
    (scoreFn : String → List Nat → List Nat → ℚ)
    (targets preds : List Nat) :
    (2 < classes →
      (foldScores classes scoreFn targets preds).lookup "MCC score" = some 0)
    ∧ (classes ≤ 2 →
      foldScores classes scoreFn targets preds =
        METRIC_NAMES.map (fun m => (m, scoreFn m targets preds))) := by
  constructor
  · intro h
    simp [foldScores, METRIC_NAMES, List.lookup, h]
  · intro h
    have h' : ¬ 2 < classes := by omega
    simp [foldScores, h']

/-- C5 witness: with 3 classes the MCC entry is 0 even though the oracle
returns 1 for every metric, and with 2 classes every entry is the oracle
value. -/
theorem classify_mcc_forced_witness :
    (foldScores 3 (fun _ _ _ => 1) [0] [0]).lookup "MCC score" = some 0 ∧
    foldScores 2 (fun _ _ _ => 1) [0] [0] =
      METRIC_NAMES.map (fun m => (m, (1 : ℚ))) := by
  constructor
  · exact (classify_mcc_forced 3 (fun _ _ _ => 1) [0] [0]).1 (by omega)
  · exact (classify_mcc_forced 2 (fun _ _ _ => 1) [0] [0]).2 (by omega)

/-- C6 counterexample: a date element with Year 2020, numeric Month 2
and no Day child parses to 2020-02-01 with an empty warning list; the
claim asserts a warning is logged whenever Day is missing, but a missing
Day defaults silently. -/
theorem parseDate_missing_day_counterexample :
    ParseDate ⟨"2020", some "2", none⟩ = Except.ok ((2020, 2, 1), []) := rfl

/-- C6 amended: for a date element with a parseable Year, a numeric
Month is used as is, a non numeric Month is matched case insensitively
against the 1-indexed three letter abbreviations jan..dec, an
unparseable Month logs a warning and defaults to 1; a missing Day
silently defaults to 1 and a present but non numeric Day logs a warning
and defaults to 1; the date constructor accepts the resulting triple
when its components are in calendar range and raises otherwise; Year
2020 with Month Feb and no Day yields 2020-02-01 and Year 2020 with an
unparseable Month yields 2020-01-01 plus a warning, while Month 13 or
February 30 raise a ValueError. -/
theorem parseDate_rules :
    (∀ (e : DateElement) (y : Int), pyInt e.year = some y →
      dateValid y (parseMonth e.month).1 (parseDay e.day).1 = true →
      ParseDate e = Except.ok ((y, (parseMonth e.month).1, (parseDay e.day).1),
        (parseMonth e.month).2 ++ (parseDay e.day).2))
    ∧ (∀ (e : DateElement) (y : Int), pyInt e.year = some y →
      dateValid y (parseMonth e.month).1 (parseDay e.day).1 = false →
      ParseDate e = Except.error "ValueError: date component out of range")
    ∧ ParseDate ⟨"2020", some "13", none⟩ =
        Except.error "ValueError: date component out of range"
    ∧ ParseDate ⟨"2020", some "2", some "30"⟩ =
        Except.error "ValueError: date component out of range"
    ∧ (∀ (s : String) (m : Int), pyInt (pyTrim s) = some m →
        parseMonth (some s) = (m, []))
    ∧ (∀ (s : String) (i : Nat), pyInt (pyTrim s) = none →
        monthIndex (lowerStr (pyTrim s)) = some i →
        parseMonth (some s) = ((i : Int), []))
    ∧ (∀ s : String, pyInt (pyTrim s) = none →
        monthIndex (lowerStr (pyTrim s)) = none →
        parseMonth (some s) = (1, ["could not parse Month " ++ pyTrim s]))
    ∧ (∀ i : Fin 12, monthIndex (MONTH_ABBRS.getD i.1 "") = some (i.1 + 1))
    ∧ parseDay none = (1, [])
    ∧ (∀ (s : String) (d : Int), pyInt s = some d → parseDay (some s) = (d, []))
    ∧ (∀ s : String, pyInt s = none →
        parseDay (some s) = (1, ["could not parse Day " ++ s]))
    ∧ ParseDate ⟨"2020", some "Feb", none⟩ = Except.ok ((2020, 2, 1), [])
    ∧ ParseDate ⟨"2020", some "Elul", none⟩ =
        Except.ok ((2020, 1, 1), ["could not parse Month Elul"]) := by
  refine ⟨?_, ?_, rfl, rfl, ?_, ?_, ?_, ?_, rfl, ?_, ?_, rfl, rfl⟩
  · intro e y hy hv
    simp [ParseDate, hy, hv]
  · intro e y hy hv
    simp [ParseDate, hy, hv]
  · intro s m hm
    simp [parseMonth, hm]
  · intro s i h1 h2
    simp [parseMonth, h1, h2]
  · intro s h1 h2
    simp [parseMonth, h1, h2]
  · decide
  · intro s d hd
    simp [parseDay, hd]
  · intro s hs
    simp [parseDay, hs]

/-- C6 witness: a fully numeric in range date element parses with no
warnings. -/
theorem parseDate_rules_witness :
    ParseDate ⟨"1999", some "5", some "7"⟩ = Except.ok ((1999, 5, 7), []) := by
  exact (parseDate_rules.1 ⟨"1999", some "5", some "7"⟩ 1999 rfl
    (by decide)).trans rfl

theorem gatekeeper_lb (la now : ℚ) :
    la + 3 ≤ now + gatekeeperSleep la now := by
  have h := le_max_left (la - now + 3) (0 : ℚ)
  unfold gatekeeperSleep
  linarith

theorem dumpBatches_chain (ds : List ℚ) :
    ∀ now la : ℚ,
      List.Chain' (fun a b => a + 3 ≤ b) (dumpBatches now la ds).1 ∧
      (∀ x ∈ (dumpBatches now la ds).1.head?, la + 3 ≤ x) := by
  induction ds with
  | nil =>
    intro now la
    constructor
    · simp [dumpBatches]
    · simp [dumpBatches]
  | cons d ds ih =>
    intro now la
    constructor
    · show List.Chain'
        (fun a b => a + 3 ≤ b)
        ((now + gatekeeperSleep la now) ::
          (dumpBatches (now + gatekeeperSleep la now + d)
            (now + gatekeeperSleep la now) ds).1)
      rw [List.chain'_cons']
      exact ⟨(ih _ _).2, (ih _ _).1⟩
    · intro x hx
      simp [dumpBatches] at hx
      rw [← hx]
      exact gatekeeper_lb la now

/-- C4 counterexample: two back to back Dump invocations, each with one
non empty batch, make their requests zero seconds apart, because each
invocation resets its remembered last_access to 0: the first invocation
started at clock 10 requests at 10 and ends at 10, and the second
invocation started at 10 also requests at 10. -/
theorem dump_cross_invocation_counterexample :
    ¬ spaced3 ((Dump 10 [0]).1 ++ (Dump (Dump 10 [0]).2 [0]).1) := by
  have hs : gatekeeperSleep 0 10 = 0 := by
    unfold gatekeeperSleep
    rw [max_eq_right (by norm_num : (0 : ℚ) - 10 + 3 ≤ 0)]
  have h1 : Dump 10 [0] = ([10], 10) := by
    simp [Dump, dumpBatches, hs]
  rw [h1]
  simp only [h1]
  intro h
  rw [show ([10] : List ℚ) ++ [10] = [10, 10] from rfl] at h
  rw [spaced3, List.chain'_cons] at h
  have := h.1
  norm_num at this

/-- C4 amended: within a single Dump invocation, two consecutive
outbound eUtils requests are never started less than 3 seconds apart:
before each request the pipeline sleeps for the remaining deficit
relative to the previous request timestamp remembered in that
invocation, clamped to zero.  Across separate Dump invocations no such
guarantee exists, since last_access restarts at 0. -/
theorem dump_spaced_within_invocation (start : ℚ) (durations : List ℚ) :
    spaced3 (Dump start durations).1 :=
  (dumpBatches_chain durations start 0).1

/-- C2 counterexample: a citation whose abstract holds only the
unlabeled AbstractText section gets that section appended to its text
by the code, while the claimed section order, which omits AbstractText,
would leave the text equal to the bare title. -/
theorem makeText_counterexample :
    MakeText (fun s => s) ⟨("123", 1), "T", some [("AbstractText", "Body")]⟩ ≠
      MakeTextClaimed (fun s => s)
        ⟨("123", 1), "T", some [("AbstractText", "Body")]⟩ := by
  decide

theorem sectionsFold_concat (nfc : String → String)
    (a : List (String × String)) (keys : List String) :
    ∀ buf : String,
      keys.foldl (fun buf s =>
        match abstractGet a s with
        | some t => buf ++ "\n\n" ++ nfc t
        | none => buf) buf
      = buf ++ concatAll ((keys.filterMap (abstractGet a)).map
          (fun t => "\n\n" ++ nfc t)) := by
  induction keys with
  | nil =>
    intro buf
    simp [concatAll]
  | cons s rest ih =>
    intro buf
    rw [List.foldl_cons]
    cases h : abstractGet a s with
    | none =>
      rw [List.filterMap_cons_none h]
      simpa using ih buf
    | some t =>
      rw [List.filterMap_cons_some h]
      simp only [List.map_cons, concatAll]
      rw [ih (buf ++ "\n\n" ++ nfc t)]
      simp [String.append_assoc]

/-- C2 amended: MakeDocuments sets each document text to the normalized
article title followed by each present abstract section in the fixed
order AbstractText (the unlabeled section key), Background, Objective,
Methods, Results, Conclusions, each preceded by a blank line separator
and normalized, and sets the document id to the first component of the
citation PMID value. -/
theorem makeDocuments_text_id (nfc : String → String) (c : Citation) :
    MakeDocumentFields nfc c =
      ((match c.abstract with
        | none => nfc c.articleTitle
        | some a => nfc c.articleTitle ++
            concatAll ((ABSTRACT_ELEMENTS.filterMap (abstractGet a)).map
              (fun t => "\n\n" ++ nfc t))),
       c.pmid.1) := by
  unfold MakeDocumentFields MakeText
  cases h : c.abstract with
  | none => simp
  | some a =>
    simp only []
    rw [sectionsFold_concat]

theorem mem_insertStable {α : Type} (k : α → Nat) (x a : α) (l : List α) :
    a ∈ insertStable k x l ↔ a = x ∨ a ∈ l := by
  induction l with
  | nil => simp [insertStable]
  | cons y ys ih =>
    by_cases h : k y < k x
    · simp only [insertStable, if_pos h, List.mem_cons, ih]
      tauto
    · simp only [insertStable, if_neg h, List.mem_cons]

theorem insertStable_pairwise {α : Type} (k : α → Nat) (x : α) (l : List α)
    (h : l.Pairwise (fun a b => k a ≤ k b)) :
    (insertStable k x l).Pairwise (fun a b => k a ≤ k b) := by
  induction l with
  | nil => simp [insertStable]
  | cons y ys ih =>
    rcases List.pairwise_cons.mp h with ⟨hy, hys⟩
    by_cases hlt : k y < k x
    · simp only [insertStable, if_pos hlt]
      refine List.pairwise_cons.mpr ⟨?_, ih hys⟩
      intro z hz
      rcases (mem_insertStable k x z ys).mp hz with rfl | hz'
      · exact le_of_lt hlt
      · exact hy z hz'
    · simp only [insertStable, if_neg hlt]
      refine List.pairwise_cons.mpr ⟨?_, h⟩
      intro z hz
      rcases List.mem_cons.mp hz with rfl | hz'
      · omega
      · exact le_trans (by omega) (hy z hz')

theorem sortStable_pairwise {α : Type} (k : α → Nat) (l : List α) :
    (sortStable k l).Pairwise (fun a b => k a ≤ k b) := by
  induction l with
  | nil => simp [sortStable]
  | cons x xs ih => exact insertStable_pairwise k x _ ih

theorem mem_sortStable {α : Type} (k : α → Nat) (a : α) (l : List α) :
    a ∈ sortStable k l ↔ a ∈ l := by
  induction l with
  | nil => simp [sortStable]
  | cons x xs ih =>
    simp only [sortStable, mem_insertStable, ih, List.mem_cons]

theorem insertStable_map_fst {α β : Type} (k : α → Nat) (x : α × β)
    (l : List (α × β)) :
    (insertStable (fun p => k p.1) x l).map Prod.fst
      = insertStable k x.1 (l.map Prod.fst) := by
  induction l with
  | nil => simp [insertStable]
  | cons y ys ih =>
    by_cases h : k y.1 < k x.1
    · simp only [insertStable, List.map_cons, if_pos h]
      simp [ih]
    · simp only [insertStable, List.map_cons, if_neg h]

theorem insertStable_map_snd {α β : Type} (k : α → Nat) (k2 : β → Nat)
    (x : α × β) (l : List (α × β)) (hx : k2 x.2 = k x.1)
    (hl : ∀ p ∈ l, k2 p.2 = k p.1) :
    (insertStable (fun p => k p.1) x l).map Prod.snd
      = insertStable k2 x.2 (l.map Prod.snd) := by
  induction l with
  | nil => simp [insertStable]
  | cons y ys ih =>
    have hy : k2 y.2 = k y.1 := hl y (by simp)
    have hys : ∀ p ∈ ys, k2 p.2 = k p.1 := fun p hp => hl p (by simp [hp])
    by_cases h : k y.1 < k x.1
    · have h2 : k2 y.2 < k2 x.2 := by rw [hy, hx]; exact h
      simp only [insertStable, List.map_cons, if_pos h, if_pos h2]
      simp [ih hys]
    · have h2 : ¬ k2 y.2 < k2 x.2 := by rw [hy, hx]; exact h
      simp only [insertStable, List.map_cons, if_neg h, if_neg h2]

theorem sortStable_map_fst {α β : Type} (k : α → Nat) (l : List (α × β)) :
    (sortStable (fun p => k p.1) l).map Prod.fst
      = sortStable k (l.map Prod.fst) := by
  induction l with
  | nil => simp [sortStable]
  | cons x xs ih =>
    simp only [sortStable, List.map_cons]
    rw [insertStable_map_fst, ih]

theorem sortStable_map_snd {α β : Type} (k : α → Nat) (k2 : β → Nat)
    (l : List (α × β)) (hl : ∀ p ∈ l, k2 p.2 = k p.1) :
    (sortStable (fun p => k p.1) l).map Prod.snd
      = sortStable k2 (l.map Prod.snd) := by
  induction l with
  | nil => simp [sortStable]
  | cons x xs ih =>
    have hx := hl x (by simp)
    have hxs : ∀ p ∈ xs, k2 p.2 = k p.1 := fun p hp => hl p (by simp [hp])
    have hsorted : ∀ p ∈ sortStable (fun p => k p.1) xs, k2 p.2 = k p.1 :=
      fun p hp => hxs p ((mem_sortStable _ p xs).mp hp)
    simp only [sortStable, List.map_cons]
    rw [insertStable_map_snd k k2 x _ hx hsorted, ih hxs]

theorem zip_len_eq : ∀ (l1 l2 : List (List String)),
    l1.map List.length = l2.map List.length →
    ∀ p ∈ l1.zip l2, p.2.length = p.1.length := by
  intro l1
  induction l1 with
  | nil =>
    intro l2 h p hp
    simp at hp
  | cons a t ih =>
    intro l2 h p hp
    cases l2 with
    | nil => simp at hp
    | cons b t2 =>
      simp only [List.map_cons, List.cons.injEq] at h
      rcases h with ⟨hab, ht⟩
      rcases List.mem_cons.mp (by simpa [List.zip_cons_cons] using hp)
        with rfl | hp'
      · simpa using hab.symm
      · exact ih t2 ht p hp'

theorem count_replicate_nat (n s i : Nat) :
    (List.replicate n s).count i = if i = s then n else 0 := by
  induction n with
  | zero => simp
  | succ n ih =>
    rw [List.replicate_succ]
    by_cases h : i = s
    · subst h
      simp [List.count_cons, ih]
    · simp [List.count_cons, ih, h, Ne.symm h]

theorem count_labelsFrom (i : Nat) : ∀ (groups : List (List String)) (s : Nat),
    (((List.enumFrom s groups).map
      (fun p => List.replicate p.2.length p.1)).flatten).count i
    = if i < s then 0 else (groups.getD (i - s) []).length := by
  intro groups
  induction groups with
  | nil =>
    intro s
    by_cases h : i < s <;> simp [h]
  | cons g gs ih =>
    intro s
    have he : List.enumFrom s (g :: gs) = (s, g) :: List.enumFrom (s + 1) gs :=
      rfl
    rw [he, List.map_cons, List.flatten_cons, List.count_append,
      count_replicate_nat, ih (s + 1)]
    by_cases h1 : i < s
    · rw [if_neg (by omega : ¬ i = s), if_pos (by omega : i < s + 1),
        if_pos h1]
    · by_cases h2 : i = s
      · subst h2
        rw [if_pos rfl, if_pos (by omega : i < i + 1), if_neg (by omega)]
        simp
      · rw [if_neg h2, if_neg (by omega : ¬ i < s + 1), if_neg h1]
        have hsub : i - s = (i - (s + 1)) + 1 := by omega
        rw [hsub]
        simp [List.getD_cons_succ]

/-- C3: Data construction sorts the classes ascending by instance count
so the smallest class gets label 0, reorders the raw groups by the very
same permutation (both group lists are stably sorted on equal length
keys, hence are the two projections of one stably sorted list of
paired groups), and assigns each instance the post sort index of its
class as label; with groups of sizes 10, 5 and 20 the labels hold
exactly 5 zeros, 10 ones and 20 twos and sizes returns [5, 10, 20]. -/
theorem data_minority_ordering :
    (∀ instGroups rawGroups : List (List String),
      instGroups.map List.length = rawGroups.map List.length →
      (sortStable List.length instGroups).Pairwise
        (fun a b => a.length ≤ b.length) ∧
      sortStable List.length instGroups =
        (sortStable (fun p => p.1.length) (instGroups.zip rawGroups)).map
          Prod.fst ∧
      sortStable List.length rawGroups =
        (sortStable (fun p => p.1.length) (instGroups.zip rawGroups)).map
          Prod.snd ∧
      (∀ i : Nat, (dataInit instGroups rawGroups).labels.count i =
        ((sortStable List.length instGroups).getD i []).length))
    ∧ (dataInit exInstGroups exInstGroups).labels.count 0 = 5
    ∧ (dataInit exInstGroups exInstGroups).labels.count 1 = 10
    ∧ (dataInit exInstGroups exInstGroups).labels.count 2 = 20
    ∧ sizes (dataInit exInstGroups exInstGroups).labels = [5, 10, 20] := by
  refine ⟨?_, by decide, by decide, by decide, by decide⟩
  intro ig rg h
  have hlen : ig.length = rg.length := by
    have h2 := congrArg List.length h
    simpa using h2
  refine ⟨sortStable_pairwise List.length ig, ?_, ?_, ?_⟩
  · rw [sortStable_map_fst, List.map_fst_zip ig rg (le_of_eq hlen)]
  · rw [sortStable_map_snd List.length List.length _ (zip_len_eq ig rg h),
      List.map_snd_zip ig rg (le_of_eq hlen.symm)]
  · intro i
    show (makeLabels (sortStable List.length ig)).count i = _
    unfold makeLabels
    rw [show List.enum (sortStable List.length ig)
        = List.enumFrom 0 (sortStable List.length ig) from rfl]
    rw [count_labelsFrom i _ 0]
    simp

/-- C3 witness: on the concrete groups of sizes 10, 5 and 20, label 0
counts the smallest sorted group, which has 5 instances. -/
theorem data_minority_ordering_witness :
    (dataInit exInstGroups exInstGroups).labels.count 0 =
      ((sortStable List.length exInstGroups).getD 0 []).length ∧
    ((sortStable List.length exInstGroups).getD 0 []).length = 5 := by
  constructor
  · exact (data_minority_ordering.1 exInstGroups exInstGroups rfl).2.2.2 0
  · decide

/-- C7: a row whose tag starts with B- or I-, whose word is a period or
a hyphen (both outside the UNMASK vocabulary), with figure filtering
off, appends the word twice to the masked buffer when no entity is open
(once directly past the entity bookkeeping and once via the normal
append path) and once when one is open, and appends it exactly once to
the raw buffer in both cases; no other field changes. -/
theorem punct_double_append (data : Line) (token tag : String)
    (hfig : data.filterFig = false)
    (htag : strStarts tag "B-" = true ∨ strStarts tag "I-" = true)
    (htok : token = "." ∨ token = "-") :
    parseTokenTag data token tag =
      Except.ok { data with
        buffer := data.buffer ++
          (if data.entityType.isSome then [token] else [token, token]),
        raw := data.raw ++ [token] } := by
  have hO : ¬ tag = "O" := by
    rintro rfl
    rcases htag with h | h <;> exact absurd h (by decide)
  have hBI : (strStarts tag "B-" || strStarts tag "I-") = true := by
    rcases htag with h | h <;> simp [h]
  have hum : token ∉ UNMASK := by
    rcases htok with rfl | rfl <;> decide
  have hfig2 : ¬ data.filterFig = true := by
    rw [hfig]
    exact Bool.false_ne_true
  unfold parseTokenTag
  rw [if_neg hO, if_pos hBI, if_neg hum, if_neg hfig2, if_pos htok]
  cases h : data.entityType with
  | none =>
    have hp : ¬ Line.parsingEntity data = true := by
      simp [Line.parsingEntity, h]
    rw [if_pos hp]
    simp [Line.append, h]
  | some t =>
    have hp : ¬ ¬ Line.parsingEntity data = true := by
      simp [Line.parsingEntity, h]
    rw [if_neg hp]
    simp [Line.append, h]

/-- C7 witness: from an empty line, a period tagged B-GENE lands twice
in the masked buffer and once in the raw buffer. -/
theorem punct_double_append_witness :
    parseTokenTag Line.empty "." "B-GENE" =
      Except.ok { Line.empty with buffer := [".", "."], raw := ["."] } := by
  have h := punct_double_append Line.empty "." "B-GENE" rfl
    (Or.inl (by decide)) (Or.inl rfl)
  exact h.trans (by decide)

/-- C8 counterexample: after Fig tagged B-GENE, a non UNMASK token p53
tagged B-GENE, and an O tagged token (which per the claim would close
the following entity span), the figure filtering flag is still set: it
is not cleared when the next entity span closes, because no entity ever
opens while the mode is active; the tokens are also never wrapped in
entity markup. -/
theorem fig_filter_counterexample :
    runTags Line.empty
      [("Fig", "B-GENE"), ("p53", "B-GENE"), ("expression", "O")] =
      Except.ok { buffer := ["Fig", "p53", "expression"],
                  raw := ["Fig", "p53", "expression"],
                  entities := [], entity := [], entityType := none,
                  filterFig := true } := by
  decide

/-- C8 amended: when Fig arrives with a B- or I- tag any open entity is
closed and figure filtering mode is entered; while the mode is active
every B- or I- tagged token outside the UNMASK vocabulary is appended
verbatim to both buffers, never wrapped in entity markup, and opens no
entity, so the mode persists; the flag is cleared by the next UNMASK
word other than Fig arriving with a B- or I- tag, not by an entity
span close, since no entity can open, hence none can close, while the
mode is active. -/
theorem fig_filtering :
    (∀ (data : Line) (tag : String),
      strStarts tag "B-" = true ∨ strStarts tag "I-" = true →
      parseTokenTag data "Fig" tag =
        Except.ok { closeEntity data with
          filterFig := true,
          buffer := (closeEntity data).buffer ++ ["Fig"],
          raw := (closeEntity data).raw ++ ["Fig"] })
    ∧ (∀ (data : Line) (t : String),
        data.entityType = some t → ¬ t = "" →
        (closeEntity data).entityType = none)
    ∧ (∀ (data : Line) (token tag : String),
        data.filterFig = true →
        strStarts tag "B-" = true ∨ strStarts tag "I-" = true →
        token ∉ UNMASK →
        parseTokenTag data token tag =
          Except.ok { data with
            buffer := data.buffer ++ [token],
            raw := data.raw ++ [token] })
    ∧ (∀ (data : Line) (token tag : String) (d2 : Line),
        data.filterFig = true →
        strStarts tag "B-" = true ∨ strStarts tag "I-" = true →
        parseTokenTag data token tag = Except.ok d2 →
        (d2.filterFig = false ↔ (token ∈ UNMASK ∧ ¬ token = "Fig"))) := by
  refine ⟨?_, ?_, ?_, ?_⟩
  · intro data tag htag
    have hO : ¬ tag = "O" := by
      rintro rfl
      rcases htag with h | h <;> exact absurd h (by decide)
    have hBI : (strStarts tag "B-" || strStarts tag "I-") = true := by
      rcases htag with h | h <;> simp [h]
    unfold parseTokenTag
    rw [if_neg hO, if_pos hBI, if_pos (by decide : "Fig" ∈ UNMASK),
      if_pos (rfl : "Fig" = "Fig")]
    simp [Line.append]
  · intro data t het hne
    unfold closeEntity
    rw [het]
    simp [hne]
  · intro data token tag hf htag hum
    have hO : ¬ tag = "O" := by
      rintro rfl
      rcases htag with h | h <;> exact absurd h (by decide)
    have hBI : (strStarts tag "B-" || strStarts tag "I-") = true := by
      rcases htag with h | h <;> simp [h]
    unfold parseTokenTag
    rw [if_neg hO, if_pos hBI, if_neg hum, if_pos hf]
    simp [Line.append]
  · intro data token tag d2 hf htag heq
    have hO : ¬ tag = "O" := by
      rintro rfl
      rcases htag with h | h <;> exact absurd h (by decide)
    have hBI : (strStarts tag "B-" || strStarts tag "I-") = true := by
      rcases htag with h | h <;> simp [h]
    unfold parseTokenTag at heq
    rw [if_neg hO, if_pos hBI] at heq
    by_cases hum : token ∈ UNMASK
    · rw [if_pos hum] at heq
      by_cases hFig : token = "Fig"
      · rw [if_pos hFig] at heq
        have hd : d2.filterFig = true := by
          injection heq with h2
          rw [← h2]
          simp [Line.append]
        rw [hd]
        simp [hFig]
      · rw [if_neg hFig] at heq
        have hd : d2.filterFig = false := by
          injection heq with h2
          rw [← h2]
          simp [Line.append]
        rw [hd]
        simp [hum, hFig]
    · rw [if_neg hum, if_pos hf] at heq
      have hd : d2.filterFig = true := by
        injection heq with h2
        rw [← h2]
        simp [Line.append, hf]
      rw [hd]
      simp [hum]

/-- C8 witness: Fig tagged B-GENE from an empty line enters filtering
mode, and a following I-GENE token on a filtering line is appended
verbatim with the mode kept. -/
theorem fig_filtering_witness :
    parseTokenTag Line.empty "Fig" "B-GENE" =
      Except.ok { Line.empty with
        buffer := ["Fig"], raw := ["Fig"], filterFig := true } ∧
    parseTokenTag { Line.empty with filterFig := true } "2A" "I-GENE" =
      Except.ok { Line.empty with
        buffer := ["2A"], raw := ["2A"], filterFig := true } := by
  constructor
  · have h := fig_filtering.1 Line.empty "B-GENE" (Or.inl (by decide))
    exact h.trans (by decide)
  · have h := fig_filtering.2.2.1 { Line.empty with filterFig := true }
      "2A" "I-GENE" rfl (Or.inr (by decide)) (by decide)
    exact h.trans (by decide)
